import Mathlib

/-!
# Verification of the Analysis Orchestration Engine

Shallow embedding of the orchestration core of the wharton-investment-analysis
repository (src/engine/portfolio_orchestrator.py and
src/engine/ai_portfolio_selector.py), together with theorems settling the
frozen specification claims.

Modelling conventions:
* Python floats are modelled as exact rationals (`ℚ`); all score arithmetic in
  the source is plain +, *, /, min, max on floats, so the rational model agrees
  with the source on every branch decision taken at the spec's stated values.
* LLM/network calls are modelled as oracle parameters: each call site receives
  an `Except String _` describing whether the underlying call raised (the
  string is the exception text) or returned a parsed payload.
* A pandas DataFrame of OHLCV rows is modelled by its Close column
  (`List ℚ`); no claim inspects the other columns.  Seeded numpy noise streams
  are passed in as explicit `ℕ → ℚ` parameters.
-/

namespace Wharton

/-! ## Score Blender (portfolio_orchestrator.py `_blend_scores`) -/

/-- One stored agent result dict: `{score, rationale, details}`.  `score` is
`Option ℚ` because Python stores `None` for a missing score. -/
structure AgentResultR where
  score : Option ℚ
  rationale : String
  details : List (String × String)
deriving DecidableEq

/-- The five blending weights held in `self.agent_weights`
(dict insertion order: value, growth_momentum, macro_regime, risk, sentiment). -/
structure AgentWeights where
  wValue : ℚ
  wGrowthMomentum : ℚ
  wMacroRegime : ℚ
  wRisk : ℚ
  wSentiment : ℚ
deriving DecidableEq

/-- `self.agent_weights.items()` in its fixed insertion order. -/
def agentWeightPairs (w : AgentWeights) : List (String × ℚ) :=
  [("value_agent", w.wValue),
   ("growth_momentum_agent", w.wGrowthMomentum),
   ("macro_regime_agent", w.wMacroRegime),
   ("risk_agent", w.wRisk),
   ("sentiment_agent", w.wSentiment)]

/-- Python's falsy-coalescing `score or 50`: `None` and `0` both read as 50. -/
def orFifty : Option ℚ → ℚ
  | none => 50
  | some v => if v = 0 then 50 else v

/-- The base weighted average of `_blend_scores` (lines 568-577):
`score = agent_results[name].get('score') or 50` accumulated over the weight
dict, divided by the total matched weight, defaulting to 50. -/
def baseScore (results : List (String × AgentResultR)) (w : AgentWeights) : ℚ :=
  let acc := (agentWeightPairs w).foldl
    (fun acc nw =>
      match results.lookup nw.1 with
      | some r => (acc.1 + orFifty r.score * nw.2, acc.2 + nw.2)
      | none => acc)
    ((0 : ℚ), (0 : ℚ))
  if 0 < acc.2 then acc.1 / acc.2 else 50

/-- The upside multiplier of `_blend_scores` (lines 582-627).  Growth, value
and risk read their score with `.get('score', 50)`; after the agent runner's
coalescing the stored score is never `None`, so `Option.getD 50` agrees with
the source on every reachable state.  Sentiment uses `.get('score') or 50`. -/
def upsideMultiplier (results : List (String × AgentResultR)) : ℚ :=
  let m0 : ℚ := 1
  let m1 :=
    match results.lookup "growth_momentum_agent" with
    | some r =>
      let g := r.score.getD 50
      if 80 ≤ g then m0 + 0.15
      else if 70 ≤ g then m0 + 0.10
      else if 60 ≤ g then m0 + 0.05
      else if g < 40 then m0 - 0.05
      else m0
    | none => m0
  let m2 :=
    match results.lookup "sentiment_agent" with
    | some r =>
      let s := orFifty r.score
      if 75 ≤ s then m1 + 0.08
      else if 65 ≤ s then m1 + 0.05
      else m1
    | none => m1
  let m3 :=
    match results.lookup "value_agent" with
    | some r =>
      let v := r.score.getD 50
      if 75 ≤ v then m2 + 0.05 else m2
    | none => m2
  let m4 :=
    match results.lookup "risk_agent" with
    | some r =>
      let k := r.score.getD 50
      if k < 30 then m3 - 0.10 else m3
    | none => m3
  max (min m4 1.35) 0.85

/-- `_blend_scores`: `final_score = base_score * upside_multiplier`
(line 629); the product is returned without any further clamp. -/
def blendScores (results : List (String × AgentResultR)) (w : AgentWeights) : ℚ :=
  baseScore results w * upsideMultiplier results

/-- `_generate_recommendation` (lines 642-653). -/
def generateRecommendation (score : ℚ) : String :=
  if 80 ≤ score then "STRONG BUY"
  else if 70 ≤ score then "BUY"
  else if 60 ≤ score then "HOLD"
  else if 40 ≤ score then "WEAK HOLD"
  else "SELL"

/-! ## Agent Runner (portfolio_orchestrator.py `analyze_single_stock` lines 365-393) -/

/-- What one agent's `analyze(ticker, data)` call does: raise, or return a
result dict with an optional score. -/
inductive AgentOutcome where
  | raises (reason : String)
  | returns (score : Option ℚ) (rationale : String) (details : List (String × String))
deriving DecidableEq

/-- The body of the per-agent loop: a raised exception is replaced by the
default result; a `None` score is coalesced to 50 in the stored dict. -/
def runAgent : AgentOutcome → AgentResultR
  | .raises reason => ⟨some 50, "Analysis failed: " ++ reason, []⟩
  | .returns none rat det => ⟨some 50, rat, det⟩
  | .returns (some v) rat det => ⟨some v, rat, det⟩

/-- The agent loop over `self.agents.items()` (a dict, modelled as an ordered
association list): every agent is processed, no exception escapes. -/
def runAgents (agents : List (String × AgentOutcome)) : List (String × AgentResultR) :=
  agents.map (fun na => (na.1, runAgent na.2))

/-! ## Rate-Limited Caller (ai_portfolio_selector.py `_rate_limited_api_call`) -/

/-- Does the char list `needle` occur at the head of `hay`? -/
def subAt : List Char → List Char → Bool
  | [], _ => true
  | _ :: _, [] => false
  | a :: as, b :: bs => (a == b) && subAt as bs

/-- Does the char list `needle` occur anywhere inside `hay`?
(Python's `needle in hay` on strings.) -/
def hasSub (needle : List Char) : List Char → Bool
  | [] => subAt needle []
  | c :: cs => subAt needle (c :: cs) || hasSub needle cs

/-- `'429' in error_msg or 'rate_limit' in error_msg.lower()` (line 82). -/
def isRateLimitMsg (m : String) : Bool :=
  hasSub "429".toList m.toList || hasSub "rate_limit".toList m.toLower.toList

/-- The outcome of one attempt of the wrapped API function: a value, or a
raised exception with message `msg`. -/
inductive CallOutcome (α : Type) where
  | success (a : α)
  | failure (msg : String)

/-- The retry loop of `_rate_limited_api_call` (lines 74-94), with
`max_retries = 3`: `remaining` counts the attempts left.  On a rate-limit
message with retries remaining it sleeps `(attempt+1) * 10` seconds (the
accumulated sleep schedule is returned); the last rate-limited attempt and any
non-throttling error re-raise.  `Except.ok none` is the `return None` after a
completed loop (unreachable for `max_retries = 3`). -/
def rateLimitedGo {α : Type} (outcomes : ℕ → CallOutcome α) :
    ℕ → ℕ → List ℕ → Except String (Option α) × List ℕ
  | 0, _, sleeps => (.ok none, sleeps)
  | remaining + 1, attempt, sleeps =>
    match outcomes attempt with
    | .success a => (.ok (some a), sleeps)
    | .failure msg =>
      if isRateLimitMsg msg then
        if 0 < remaining then
          rateLimitedGo outcomes remaining (attempt + 1) (sleeps ++ [(attempt + 1) * 10])
        else (.error msg, sleeps)
      else (.error msg, sleeps)

/-- `_rate_limited_api_call` with the source's `max_retries = 3` (the
min-inter-call delay before the loop affects no claim and is not modelled).
Returns the call result and the list of backoff sleeps performed. -/
def rateLimitedApiCall {α : Type} (outcomes : ℕ → CallOutcome α) :
    Except String (Option α) × List ℕ :=
  rateLimitedGo outcomes 3 0 []

/-- A provider that is throttled on every attempt. -/
def throttleAlways : ℕ → CallOutcome Unit := fun _ => .failure "429 rate limit"

/-! ## Parallel Data Fetcher (portfolio_orchestrator.py `_gather_data`) -/

/-- A value of a fundamentals dict (string- or number-valued keys). -/
inductive FVal where
  | str (s : String)
  | num (q : ℚ)
deriving DecidableEq

/-- A fundamentals dict. -/
abbrev Fundamentals := List (String × FVal)

/-- Numeric lookup into a fundamentals dict. -/
def lookupNum (f : Fundamentals) (k : String) : Option ℚ :=
  match f.lookup k with
  | some (FVal.num q) => some q
  | _ => none

/-- `_extract_price_history_from_fundamentals` (lines 852-884), modelled by its
Close column: 252 prices linearly interpolated between the 52-week low and
high plus a seeded noise stream (`np.random.seed(42)` noise passed in as the
`noise` parameter), with the last price forced to the current price. -/
def extractPriceHistory (noise : ℕ → ℚ) (f : Fundamentals) : List ℚ :=
  let currentPrice := (lookupNum f "price").getD 100
  let high := (lookupNum f "week_52_high").getD (currentPrice * 1.2)
  let low := (lookupNum f "week_52_low").getD (currentPrice * 0.8)
  (List.range 252).map (fun i =>
    if i = 251 then currentPrice
    else low + (high - low) * i / 251 + noise i)

/-- Benchmark random-walk prices of `_create_benchmark_data` (lines 886-914):
start at 4000, each day multiplied by `1 + dailyReturns k`. -/
def benchPrices (dailyReturns : ℕ → ℚ) : ℕ → ℚ
  | 0 => 4000
  | k + 1 => benchPrices dailyReturns k * (1 + dailyReturns (k + 1))

/-- `_create_benchmark_data`, modelled by its Close column over `nDays` dates. -/
def createBenchmarkData (dailyReturns : ℕ → ℚ) (nDays : ℕ) : List ℚ :=
  (List.range nDays).map (benchPrices dailyReturns)

/-- The three concurrently submitted tasks of `_gather_data`, each either a
payload or a raised exception.  Result assembly in the source is
as-completed and field-wise, so only each task's own outcome matters. -/
structure GatherOutcomes where
  fundamentalsTask : Except String Fundamentals
  priceHistoryTask : Except String (List ℚ)
  benchmarkTask : Except String (List ℚ)

/-- The assembled data bundle (the `data` dict returned by `_gather_data`). -/
structure GatheredData where
  fundamentals : Fundamentals
  priceHistory : List ℚ
  benchmarkHistory : List ℚ

/-- `_gather_data` (lines 751-850): per-task exception handling sets
`fundamentals = {}`, `_price_history_raw = None`, `benchmark_history = empty`;
afterwards `price_history` is filled from the raw fetch, or synthesized from
fundamentals via `_extract_price_history_from_fundamentals` when the raw fetch
is missing (or when fundamentals flags the comprehensive-enhanced source), or
left empty when fundamentals is empty too. -/
def gatherData (noise : ℕ → ℚ) (o : GatherOutcomes) : GatheredData :=
  let fund := match o.fundamentalsTask with | .ok v => v | .error _ => []
  let raw : Option (List ℚ) :=
    match o.priceHistoryTask with | .ok v => some v | .error _ => none
  let bench := match o.benchmarkTask with | .ok v => v | .error _ => []
  let ph :=
    if fund.lookup "source" = some (FVal.str "comprehensive_enhanced") then
      extractPriceHistory noise fund
    else
      match raw with
      | some v => v
      | none => if fund ≠ [] then extractPriceHistory noise fund else []
  ⟨fund, ph, bench⟩

/-! ## Per-ticker pipeline (portfolio_orchestrator.py `analyze_single_stock`) -/

/-- The orchestrator's per-ticker result dict, restricted to the fields the
claims inspect. -/
structure AnalysisResult where
  error : Option String
  blendedScore : ℚ
  finalScore : ℚ
  eligible : Bool
  agentResults : List (String × AgentResultR)
deriving DecidableEq

/-- `analyze_single_stock` (lines 81-449) without the progress UI: gather the
data bundle (total, never raises in this embedding since `gatherData` is
total), return the zeroed error result when fundamentals is empty (lines
265-279), otherwise run every agent and blend. -/
def analyzeSingleStock (noise : ℕ → ℚ) (o : GatherOutcomes)
    (agents : List (String × AgentOutcome)) (w : AgentWeights) : AnalysisResult :=
  let data := gatherData noise o
  if data.fundamentals = [] then
    { error := some "No data available", blendedScore := 0, finalScore := 0,
      eligible := false, agentResults := [] }
  else
    let results := runAgents agents
    let blended := blendScores results w
    { error := none, blendedScore := blended, finalScore := blended,
      eligible := true, agentResults := results }

/-! ## Phase Progress Estimator (portfolio_orchestrator.py `_estimate_time_remaining`) -/

/-- `max(0.0, min(1.0, x))`. -/
def clamp01 (x : ℚ) : ℚ := max 0 (min 1 x)

/-- `(progress - start) / (end - start) if end > start else 1.0`. -/
def phaseProg (s e p : ℚ) : ℚ := if s < e then (p - s) / (e - s) else 1

/-- Total duration of a list of phases `(start_pct, end_pct, duration)`. -/
def durSum : List (ℚ × ℚ × ℚ) → ℚ
  | [] => 0
  | (_, _, d) :: rest => d + durSum rest

/-- The phase scan of `_estimate_time_remaining` (lines 511-529): find the
first phase whose `end_pct` exceeds the progress, add its scaled remainder
plus every later phase's full duration; `none` when no phase matches
(`found_current` stays false and "" is returned). -/
def rawRemaining : List (ℚ × ℚ × ℚ) → ℚ → Option ℚ
  | [], _ => none
  | (s, e, d) :: rest, p =>
    if p < e then some (d * (1 - clamp01 (phaseProg s e p)) + durSum rest)
    else rawRemaining rest p

/-- The phase table (lines 497-509): defaults `(0,42,35), (42,98,48),
(98,100,1)`, with the first two durations replaced by historical averages when
the history lists are non-empty. -/
def etaPhases (histDG histAG : List ℚ) : List (ℚ × ℚ × ℚ) :=
  [(0, 42, if histDG ≠ [] then histDG.sum / histDG.length else 35),
   (42, 98, if histAG ≠ [] then histAG.sum / histAG.length else 48),
   (98, 100, 1)]

/-- One call of `_estimate_time_remaining` at the level of the numeric
estimate (the final `max(1, int(remaining))` string formatting is monotone in
the estimate and not modelled).  Returns the emitted estimate (`none` for the
"" returns) and the updated `_eta_previous` smoothing state; the state is
updated even when the post-smoothing value is non-positive (line 541 runs
before the `remaining <= 0` check). -/
def etaStep (histDG histAG : List ℚ) (elapsed p : ℚ) (prev : Option ℚ) :
    Option ℚ × Option ℚ :=
  if p < 3 ∨ elapsed < 1 then (none, prev)
  else
    match rawRemaining (etaPhases histDG histAG) p with
    | none => (none, prev)
    | some r0 =>
      let r1 :=
        match prev with
        | some pv =>
          if 0 < pv then 0.4 * (if pv * 1.15 < r0 then pv * 1.15 else r0) + 0.6 * pv
          else r0
        | none => r0
      (if r1 ≤ 0 then none else some r1, some r1)

/-- A sequence of estimator queries at increasing wall-clock points, with the
default (unrevised) phase durations, threading the smoothing state and
collecting the emitted estimates. -/
def runEta : List (ℚ × ℚ) → Option ℚ → List ℚ
  | [], _ => []
  | (el, p) :: rest, prev =>
    match etaStep [] [] el p prev with
    | (some v, prev2) => v :: runEta rest prev2
    | (none, prev2) => runEta rest prev2

/-- Closed form of the default-duration raw remaining time on `[3, 100)`. -/
def etaRaw (p : ℚ) : ℚ :=
  if p < 42 then 35 * (1 - p / 42) + 49
  else if p < 98 then 48 * (1 - (p - 42) / 56) + 1
  else 1 - (p - 98) / 2

/-! ## AI Candidate Selector (ai_portfolio_selector.py `select_portfolio_tickers`) -/

/-- One stage record of the session log's `stages` list. -/
inductive StageRecord where
  | initialSelection (source : String) (tickers : List String)
  | aggregation (uniqueTickers : List String)
  | rationaleGeneration (tickerRationales : List (String × String))
  | finalRounds (round1 round2 round3 : List String)
  | finalConsolidation (uniqueFinalists final5 : List String)
deriving DecidableEq

/-- The oracle describing what every LLM call of one selection session does:
either a parsed payload or a raised/parse-failed exception. -/
structure SelectorOracle where
  openaiInit : Except String (List String)
  geminiInit : Except String (List String)
  rationaleResp : String → Except String String
  round1 : Except String (List String)
  round2 : Except String (List String)
  round3 : Except String (List String)
  narrow : Except String (List String)

/-- The hardcoded OpenAI fallback list (lines 320-321). -/
def openaiFallbackTickers : List String :=
  ["AAPL", "MSFT", "GOOGL", "AMZN", "NVDA", "META", "TSLA", "BRK.B",
   "JPM", "V", "JNJ", "WMT", "PG", "MA", "HD", "DIS", "BAC", "CSCO", "ADBE", "CRM"]

/-- The hardcoded Gemini fallback list (lines 414-415). -/
def geminiFallbackTickers : List String :=
  ["COST", "NFLX", "AMD", "ORCL", "INTC", "QCOM", "AMAT", "TXN",
   "HON", "UNP", "UPS", "RTX", "LMT", "CAT", "DE", "MMM", "GE", "BA", "DHR", "ABT"]

/-- `_openai_select_tickers` (lines 239-322): the parsed ticker list on
success, the first `num_tickers` fallback tickers on any failure. -/
def openaiSelectTickers (o : SelectorOracle) (numTickers : ℕ) : List String :=
  match o.openaiInit with
  | .ok ts => ts
  | .error _ => openaiFallbackTickers.take numTickers

/-- `_gemini_select_tickers` (lines 324-416). -/
def geminiSelectTickers (o : SelectorOracle) (numTickers : ℕ) : List String :=
  match o.geminiInit with
  | .ok ts => ts
  | .error _ => geminiFallbackTickers.take numTickers

/-- `_generate_ticker_rationale` (lines 418-463) with its templated fallback. -/
def generateTickerRationale (o : SelectorOracle) (t : String) : String :=
  match o.rationaleResp t with
  | .ok r => r
  | .error _ =>
    t ++ " is a well-established company with strong market position. It aligns with the investment objectives and risk profile. The stock offers growth potential while maintaining reasonable valuation metrics. Adding this position contributes to portfolio diversification and strategic objectives."

/-- `_openai_select_top_5` (lines 465-529): the parsed list truncated to 5 on
success, the first 5 candidates on failure. -/
def openaiSelectTop5 (resp : Except String (List String)) (candidates : List String) :
    List String :=
  match resp with
  | .ok l => l.take 5
  | .error _ => candidates.take 5

/-- `_openai_narrow_to_5` (lines 531-596): the parsed list truncated to 5 on
success, the first 5 finalists on failure. -/
def openaiNarrowTo5 (resp : Except String (List String)) (finalists : List String) :
    List String :=
  match resp with
  | .ok l => l.take 5
  | .error _ => finalists.take 5

/-- Stage 6 of `select_portfolio_tickers` (lines 196-213): set-union the three
rounds' picks; call the extra narrowing only when more than 5 remain.
(`list(set(..))` is modelled by `List.dedup`; only the underlying set is
observable.) -/
def consolidateFinalists (r1 r2 r3 : List String)
    (narrowResp : Except String (List String)) : List String :=
  let uniqueFinalists := (r1 ++ r2 ++ r3).dedup
  if 5 < uniqueFinalists.length then openaiNarrowTo5 narrowResp uniqueFinalists
  else uniqueFinalists

/-- The returned selection payload, restricted to the fields the claims
inspect (`final_tickers`, `all_candidates`, the rounds, and the session log's
`stages`). -/
structure SelectionResult where
  finalTickers : List String
  allCandidates : List String
  selectionRounds : List (List String)
  stages : List StageRecord

/-- `select_portfolio_tickers` (lines 96-237): dual initial selection,
case-sensitive set-union aggregation, per-candidate rationales, three
independent top-5 rounds over the full candidate list, and consolidation. -/
def selectPortfolioTickers (o : SelectorOracle) : SelectionResult :=
  let openaiTickers := openaiSelectTickers o 20
  let geminiTickers := geminiSelectTickers o 20
  let allCandidates := (openaiTickers ++ geminiTickers).dedup
  let tickerRationales := allCandidates.map (fun t => (t, generateTickerRationale o t))
  let r1 := openaiSelectTop5 o.round1 allCandidates
  let r2 := openaiSelectTop5 o.round2 allCandidates
  let r3 := openaiSelectTop5 o.round3 allCandidates
  let uniqueFinalists := (r1 ++ r2 ++ r3).dedup
  let finalTickers := consolidateFinalists r1 r2 r3 o.narrow
  { finalTickers := finalTickers,
    allCandidates := allCandidates,
    selectionRounds := [r1, r2, r3],
    stages :=
      [StageRecord.initialSelection "openai_initial_selection" openaiTickers,
       StageRecord.initialSelection "gemini_initial_selection" geminiTickers,
       StageRecord.aggregation allCandidates,
       StageRecord.rationaleGeneration tickerRationales,
       StageRecord.finalRounds r1 r2 r3,
       StageRecord.finalConsolidation uniqueFinalists finalTickers] }

/-- All tickers appearing in one stage record. -/
def stageTickers : StageRecord → List String
  | .initialSelection _ ts => ts
  | .aggregation ts => ts
  | .rationaleGeneration pairs => pairs.map Prod.fst
  | .finalRounds r1 r2 r3 => r1 ++ r2 ++ r3
  | .finalConsolidation u fs => u ++ fs

/-! ## Concrete inputs used by the claim theorems -/

/-- The repository's default blending weights (`__init__`, lines 71-77); also
the weight map of the spec's ACME example. -/
def defaultAgentWeights : AgentWeights := ⟨0.20, 0.40, 0.10, 0.15, 0.15⟩

/-- The spec's end-to-end ACME example agent scores. -/
def acmeResults : List (String × AgentResultR) :=
  [("value_agent", ⟨some 80, "", []⟩),
   ("growth_momentum_agent", ⟨some 85, "", []⟩),
   ("macro_regime_agent", ⟨some 50, "", []⟩),
   ("risk_agent", ⟨some 60, "", []⟩),
   ("sentiment_agent", ⟨some 78, "", []⟩)]

/-- All five agents scoring 100. -/
def hundredResults : List (String × AgentResultR) :=
  [("value_agent", ⟨some 100, "", []⟩),
   ("growth_momentum_agent", ⟨some 100, "", []⟩),
   ("macro_regime_agent", ⟨some 100, "", []⟩),
   ("risk_agent", ⟨some 100, "", []⟩),
   ("sentiment_agent", ⟨some 100, "", []⟩)]

/-- An agent roster with one raising agent and one null-scored agent. -/
def c6Agents : List (String × AgentOutcome) :=
  [("value_agent", .raises "boom"),
   ("growth_momentum_agent", .returns none "no score returned" []),
   ("risk_agent", .returns (some 70) "ok" [])]

/-- A non-empty fundamentals dict without the comprehensive-enhanced marker. -/
def c7Fund : Fundamentals := [("price", FVal.num 100)]

/-- Gather outcomes where only the price-history task raises. -/
def c7Outcomes : GatherOutcomes :=
  ⟨.ok c7Fund, .error "price fetch failed", .ok [4000]⟩

/-- Gather outcomes where only the fundamentals task raises. -/
def c8Outcomes : GatherOutcomes :=
  ⟨.error "fundamentals fetch failed", .ok [101], .ok [4000]⟩

/-- A selection oracle whose first narrowing round names a ticker outside the
candidate union. -/
def c4Oracle : SelectorOracle :=
  { openaiInit := .ok ["AAA"],
    geminiInit := .ok ["BBB"],
    rationaleResp := fun _ => .error "rationale call failed",
    round1 := .ok ["ZZZZ"],
    round2 := .error "round failed",
    round3 := .error "round failed",
    narrow := .error "narrow failed" }

/-- A selection oracle in which every LLM call fails (total provider outage). -/
def c4FallbackOracle : SelectorOracle :=
  { openaiInit := .error "outage",
    geminiInit := .error "outage",
    rationaleResp := fun _ => .error "outage",
    round1 := .error "outage",
    round2 := .error "outage",
    round3 := .error "outage",
    narrow := .error "outage" }

/-- Pointwise coalescing of a stored score that is exactly 0 into 50 (what the
falsy `or 50` reads make effectively true inside the base average). -/
def zeroTo50 : Option ℚ → Option ℚ
  | none => none
  | some v => if v = 0 then some 50 else some v

/-- Replace every agent score of exactly 0 by 50 across a result map. -/
def coalesceZeroScores (results : List (String × AgentResultR)) :
    List (String × AgentResultR) :=
  results.map (fun p => (p.1, { p.2 with score := zeroTo50 p.2.score }))

end Wharton

namespace Wharton

/-! ## Helper lemmas -/

/-- The falsy read is invariant under zero-to-50 coalescing. -/
theorem orFifty_zeroTo50 (s : Option ℚ) : orFifty (zeroTo50 s) = orFifty s := by
  cases s with
  | none => rfl
  | some v =>
    by_cases h : v = 0 <;> simp [zeroTo50, orFifty, h]

/-- Looking up in a value-mapped association list maps the looked-up value. -/
theorem lookup_map_result (f : AgentResultR → AgentResultR) (k : String) :
    ∀ l : List (String × AgentResultR),
      (l.map (fun p => (p.1, f p.2))).lookup k = (l.lookup k).map f
  | [] => rfl
  | (a, r) :: rest => by
    simp only [List.map_cons, List.lookup]
    cases h : k == a
    · simp [lookup_map_result f k rest]
    · simp

/-- The base weighted average is unchanged when every score of exactly 0 is
replaced by 50, because the source reads scores with the falsy `or 50`. -/
theorem baseScore_coalesce (results : List (String × AgentResultR)) (w : AgentWeights) :
    baseScore (coalesceZeroScores results) w = baseScore results w := by
  have hb : ∀ (nw : String × ℚ) (acc : ℚ × ℚ),
      (match (coalesceZeroScores results).lookup nw.1 with
       | some r => (acc.1 + orFifty r.score * nw.2, acc.2 + nw.2)
       | none => acc) =
      (match results.lookup nw.1 with
       | some r => (acc.1 + orFifty r.score * nw.2, acc.2 + nw.2)
       | none => acc) := by
    intro nw acc
    have hl : (coalesceZeroScores results).lookup nw.1 =
        (results.lookup nw.1).map (fun r => { r with score := zeroTo50 r.score }) := by
      simp only [coalesceZeroScores]
      exact lookup_map_result (fun r => { r with score := zeroTo50 r.score }) nw.1 results
    rw [hl]
    cases results.lookup nw.1 with
    | none => rfl
    | some r => simp [orFifty_zeroTo50]
  have key : ∀ (pairs : List (String × ℚ)) (acc : ℚ × ℚ),
      pairs.foldl
        (fun acc nw =>
          match (coalesceZeroScores results).lookup nw.1 with
          | some r => (acc.1 + orFifty r.score * nw.2, acc.2 + nw.2)
          | none => acc) acc =
      pairs.foldl
        (fun acc nw =>
          match results.lookup nw.1 with
          | some r => (acc.1 + orFifty r.score * nw.2, acc.2 + nw.2)
          | none => acc) acc := by
    intro pairs
    induction pairs with
    | nil => intro acc; rfl
    | cons nw rest ih =>
      intro acc
      simp only [List.foldl_cons]
      rw [hb nw acc, ih]
  simp only [baseScore, key]

/-- A round of `_openai_select_top_5` only returns candidates when its parsed
response does. -/
theorem openaiSelectTop5_subset (resp : Except String (List String)) (cands : List String)
    (h : ∀ l, resp = .ok l → ∀ t ∈ l, t ∈ cands) :
    ∀ t ∈ openaiSelectTop5 resp cands, t ∈ cands := by
  intro t ht
  cases resp with
  | ok l => exact h l rfl t (List.take_subset 5 l ht)
  | error e => exact List.take_subset 5 cands ht

/-- `_openai_narrow_to_5` only returns candidates when its parsed response
does and the finalists are candidates. -/
theorem openaiNarrowTo5_subset (resp : Except String (List String))
    (finalists cands : List String)
    (hf : ∀ t ∈ finalists, t ∈ cands)
    (h : ∀ l, resp = .ok l → ∀ t ∈ l, t ∈ cands) :
    ∀ t ∈ openaiNarrowTo5 resp finalists, t ∈ cands := by
  intro t ht
  cases resp with
  | ok l => exact h l rfl t (List.take_subset 5 l ht)
  | error e => exact hf t (List.take_subset 5 finalists ht)

/-- On `[3, 100)` with the default (unrevised) phase table, the phase scan of
`_estimate_time_remaining` returns the closed-form `etaRaw`. -/
theorem rawRemaining_default (p : ℚ) (h3 : 3 ≤ p) (h100 : p < 100) :
    rawRemaining (etaPhases [] []) p = some (etaRaw p) := by
  have hE : etaPhases [] [] = [(0, 42, 35), (42, 98, 48), (98, 100, 1)] := by
    norm_num [etaPhases]
  rw [hE]
  simp only [rawRemaining, durSum]
  by_cases h42 : p < 42
  · rw [if_pos h42]
    have hp : phaseProg 0 42 p = p / 42 := by norm_num [phaseProg]
    have hc : clamp01 (p / 42) = p / 42 := by
      unfold clamp01
      rw [min_eq_right ((div_le_one (by norm_num)).mpr (by linarith)),
        max_eq_right (div_nonneg (by linarith) (by norm_num))]
    rw [hp, hc]
    unfold etaRaw
    rw [if_pos h42]
    norm_num
  · rw [if_neg h42]
    by_cases h98 : p < 98
    · rw [if_pos h98]
      have hp : phaseProg 42 98 p = (p - 42) / 56 := by norm_num [phaseProg]
      have hc : clamp01 ((p - 42) / 56) = (p - 42) / 56 := by
        unfold clamp01
        rw [min_eq_right ((div_le_one (by norm_num)).mpr (by linarith)),
          max_eq_right (div_nonneg (by linarith) (by norm_num))]
      rw [hp, hc]
      unfold etaRaw
      rw [if_neg h42, if_pos h98]
      norm_num
    · rw [if_neg h98, if_pos h100]
      have hp : phaseProg 98 100 p = (p - 98) / 2 := by norm_num [phaseProg]
      have hc : clamp01 ((p - 98) / 2) = (p - 98) / 2 := by
        unfold clamp01
        rw [min_eq_right ((div_le_one (by norm_num)).mpr (by linarith)),
          max_eq_right (div_nonneg (by linarith) (by norm_num))]
      rw [hp, hc]
      unfold etaRaw
      rw [if_neg h42, if_neg h98]
      ring_nf

/-- The default raw remaining time is non-increasing in the progress figure. -/
theorem etaRaw_anti {p q : ℚ} (h3 : 3 ≤ p) (hpq : p ≤ q) (h100 : q < 100) :
    etaRaw q ≤ etaRaw p := by
  unfold etaRaw
  split_ifs <;> linarith

/-- The default raw remaining time is positive before completion. -/
theorem etaRaw_pos {p : ℚ} (h3 : 3 ≤ p) (h100 : p < 100) : 0 < etaRaw p := by
  unfold etaRaw
  split_ifs <;> linarith

/-- First emission: without a previous estimate the estimator emits the raw
remaining time and stores it. -/
theorem etaStep_start {el p : ℚ} (h3 : 3 ≤ p) (h100 : p < 100) (hel : 1 ≤ el) :
    etaStep [] [] el p none = (some (etaRaw p), some (etaRaw p)) := by
  have hnot : ¬(p < 3 ∨ el < 1) := by push_neg; exact ⟨by linarith, by linarith⟩
  have hpos : ¬(etaRaw p ≤ 0) := not_le.mpr (etaRaw_pos h3 h100)
  unfold etaStep
  rw [if_neg hnot, rawRemaining_default p h3 h100]
  simp [hpos]

/-- Later emissions: when the stored estimate dominates the raw remaining
time, the estimator emits the exponential blend of the two. -/
theorem etaStep_cont {el p pv : ℚ} (h3 : 3 ≤ p) (h100 : p < 100) (hel : 1 ≤ el)
    (hpv : 0 < pv) (hle : etaRaw p ≤ pv) :
    etaStep [] [] el p (some pv) =
      (some (0.4 * etaRaw p + 0.6 * pv), some (0.4 * etaRaw p + 0.6 * pv)) := by
  have hnot : ¬(p < 3 ∨ el < 1) := by push_neg; exact ⟨by linarith, by linarith⟩
  have hcap : ¬(pv * 1.15 < etaRaw p) := by push_neg; nlinarith
  have hpos : ¬((0.4 : ℚ) * etaRaw p + 0.6 * pv ≤ 0) := by
    have h0 := etaRaw_pos h3 h100
    push_neg
    nlinarith
  unfold etaStep
  rw [if_neg hnot, rawRemaining_default p h3 h100]
  simp [hpv, hcap, hpos]

/-- Whatever the phase history and inputs, one estimator step emitted from a
positive stored estimate never exceeds 1.2 times that estimate (the source cap
is 1.15 before blending, hence at most 1.06 after). -/
theorem etaStep_cap (histDG histAG : List ℚ) (el p pv e : ℚ) (pr2 : Option ℚ)
    (hpv : 0 < pv) (he : etaStep histDG histAG el p (some pv) = (some e, pr2)) :
    e ≤ 1.2 * pv := by
  unfold etaStep at he
  by_cases h1 : p < 3 ∨ el < 1
  · rw [if_pos h1] at he
    simp at he
  · rw [if_neg h1] at he
    cases hr : rawRemaining (etaPhases histDG histAG) p with
    | none =>
      rw [hr] at he
      simp at he
    | some r0 =>
      rw [hr] at he
      by_cases hcap : pv * 1.15 < r0
      · simp only [hpv, if_true, hcap] at he
        by_cases hz : (0.4 : ℚ) * (pv * 1.15) + 0.6 * pv ≤ 0
        · simp [hz] at he
        · simp [hz] at he
          obtain ⟨he1, _⟩ := he
          nlinarith [he1]
      · simp only [hpv, if_true, hcap, if_false] at he
        by_cases hz : (0.4 : ℚ) * r0 + 0.6 * pv ≤ 0
        · simp [hz] at he
        · simp [hz] at he
          obtain ⟨he1, _⟩ := he
          push_neg at hcap
          nlinarith [he1]

/-- Invariant-carrying induction for the emitted-estimate chain: starting from
a positive stored estimate that dominates the raw time of the next query, the
whole emitted sequence is non-increasing and satisfies the 1.2 cap. -/
theorem runEta_aux (inputs : List (ℚ × ℚ)) : ∀ pv : ℚ,
    (∀ x ∈ inputs, 3 ≤ x.2 ∧ x.2 < 100 ∧ 1 ≤ x.1) →
    List.Chain' (fun a b : ℚ × ℚ => a.2 ≤ b.2) inputs →
    0 < pv →
    (∀ x ∈ inputs.head?, etaRaw x.2 ≤ pv) →
    List.Chain' (fun a b : ℚ => b ≤ a ∧ b ≤ 1.2 * a) (pv :: runEta inputs (some pv)) := by
  induction inputs with
  | nil =>
    intro pv _ _ _ _
    simp [runEta]
  | cons elp rest ih =>
    rcases elp with ⟨el, p⟩
    intro pv hbounds hchain hpv hhd
    obtain ⟨h3, h100, hel⟩ := hbounds (el, p) (List.mem_cons_self _ _)
    have hle : etaRaw p ≤ pv := hhd (el, p) rfl
    have hrpos : 0 < etaRaw p := etaRaw_pos h3 h100
    have hstep := etaStep_cont h3 h100 hel hpv hle
    have hepos : 0 < (0.4 : ℚ) * etaRaw p + 0.6 * pv := by nlinarith
    have heLe : (0.4 : ℚ) * etaRaw p + 0.6 * pv ≤ pv := by nlinarith
    have heCap : (0.4 : ℚ) * etaRaw p + 0.6 * pv ≤ 1.2 * pv := by nlinarith
    have hgeRaw : etaRaw p ≤ (0.4 : ℚ) * etaRaw p + 0.6 * pv := by nlinarith
    have hrun : runEta ((el, p) :: rest) (some pv) =
        ((0.4 : ℚ) * etaRaw p + 0.6 * pv) :: runEta rest (some (0.4 * etaRaw p + 0.6 * pv)) := by
      simp only [runEta, hstep]
    rw [hrun, List.chain'_cons]
    refine ⟨⟨heLe, heCap⟩, ?_⟩
    apply ih (0.4 * etaRaw p + 0.6 * pv) ?_ hchain.tail hepos ?_
    · intro x hx
      exact hbounds x (List.mem_cons_of_mem _ hx)
    · intro x hx
      have hpx : p ≤ x.2 := (List.chain'_cons'.mp hchain).1 x hx
      have hb := hbounds x (List.mem_cons_of_mem _ (List.mem_of_mem_head? hx))
      calc etaRaw x.2 ≤ etaRaw p := etaRaw_anti h3 hpx hb.2.1
        _ ≤ 0.4 * etaRaw p + 0.6 * pv := hgeRaw

end Wharton

namespace Wharton

/-! ## Claim theorems -/

/-- Claim C1, counterexample: the claim asserts consolidation returns exactly
5 tickers even when the set-union of the three round picks has size 3; on the
code, a size-3 union is returned unchanged (3 tickers, not 5). -/
theorem C1_counterexample :
    (consolidateFinalists ["A", "B", "C"] ["A", "B"] ["C"] (Except.error "e")).length ≠ 5 := by
  decide

/-- Claim C1 (amended): consolidation returns the round-pick union unchanged
and independent of the narrowing response when the union has at most 5 members
(so exactly 5 only in the size-5 case, and 3 in the size-3 case), and invokes
the extra narrowing call exactly when the union exceeds 5 members (the size-8
case), where it yields 5 tickers both for a parsed response of at least 5
entries and on the parse-failure fallback. -/
theorem C1_consolidation_amended :
    (∀ resp, (consolidateFinalists ["A", "B", "C", "D", "E"] ["A", "B", "C", "D", "E"]
        ["A", "B", "C", "D", "E"] resp).length = 5) ∧
    (∀ resp resp', consolidateFinalists ["A", "B", "C", "D", "E"] ["A", "B", "C", "D", "E"]
        ["A", "B", "C", "D", "E"] resp =
      consolidateFinalists ["A", "B", "C", "D", "E"] ["A", "B", "C", "D", "E"]
        ["A", "B", "C", "D", "E"] resp') ∧
    (∀ resp, (consolidateFinalists ["A", "B", "C"] ["A", "B"] ["C"] resp).length = 3) ∧
    (∀ resp resp', consolidateFinalists ["A", "B", "C"] ["A", "B"] ["C"] resp =
      consolidateFinalists ["A", "B", "C"] ["A", "B"] ["C"] resp') ∧
    ((consolidateFinalists ["A", "B", "C", "D", "E"] ["D", "E", "F", "G", "H"]
        ["A", "B", "F", "G", "H"] (Except.ok ["A", "B", "C", "D", "E", "F"])).length = 5) ∧
    ((consolidateFinalists ["A", "B", "C", "D", "E"] ["D", "E", "F", "G", "H"]
        ["A", "B", "F", "G", "H"] (Except.error "e")).length = 5) ∧
    (∀ resp, consolidateFinalists ["A", "B", "C", "D", "E"] ["D", "E", "F", "G", "H"]
        ["A", "B", "F", "G", "H"] resp =
      openaiNarrowTo5 resp ((["A", "B", "C", "D", "E"] ++ ["D", "E", "F", "G", "H"] ++
        ["A", "B", "F", "G", "H"]).dedup)) := by
  refine ⟨fun _ => rfl, fun _ _ => rfl, fun _ => rfl, fun _ _ => rfl, ?_, ?_, fun _ => rfl⟩
  · decide
  · decide

/-- Claim C2, counterexample: at the agent scores and weights of the claim,
the base weighted average is 75.7, not the claimed 74.7
(80 x .2 + 85 x .4 + 50 x .1 + 60 x .15 + 78 x .15 = 75.7). -/
theorem C2_counterexample : baseScore acmeResults defaultAgentWeights ≠ (74.7 : ℚ) := by
  simp [baseScore, acmeResults, defaultAgentWeights, agentWeightPairs, orFifty, List.lookup]
  norm_num

/-- Claim C2 (amended): for agent scores value 80, growth 85, macro 50,
risk 60, sentiment 78 and weights .20/.40/.10/.15/.15, blending produces
base_score 75.7; the upside adjustments are growth at least 80 (+0.15),
sentiment at least 75 (+0.08), value at least 75 (+0.05) and no risk penalty,
giving multiplier 1.28; final_score is 96.896 and the recommendation label is
STRONG BUY. -/
theorem C2_acme_example_amended :
    baseScore acmeResults defaultAgentWeights = 75.7 ∧
    upsideMultiplier acmeResults = 1.28 ∧
    blendScores acmeResults defaultAgentWeights = 96.896 ∧
    generateRecommendation (blendScores acmeResults defaultAgentWeights) = "STRONG BUY" := by
  refine ⟨?_, ?_, ?_, ?_⟩ <;>
    simp [baseScore, upsideMultiplier, blendScores, generateRecommendation, acmeResults,
      defaultAgentWeights, agentWeightPairs, orFifty, List.lookup] <;>
    norm_num

/-- Claim C3: for every set of agent results and weights the blender computes
final_score as base_score times the upside multiplier with no re-clamp of the
product to the 0-100 range; in particular all five agents scoring 100 yields
final_score 128, which exceeds 100. -/
theorem C3_no_final_clamp :
    (∀ results w, blendScores results w = baseScore results w * upsideMultiplier results) ∧
    blendScores hundredResults defaultAgentWeights = 128 ∧ (100 : ℚ) < 128 := by
  refine ⟨fun _ _ => rfl, ?_, by norm_num⟩
  simp [baseScore, upsideMultiplier, blendScores, hundredResults,
    defaultAgentWeights, agentWeightPairs, orFifty, List.lookup]
  norm_num

/-- Claim C4, counterexample: the session built from an oracle whose first
narrowing round returns the ticker ZZZZ (which neither initial selector
proposed) contains a stage record naming ZZZZ although ZZZZ is not in the
aggregated unique-candidate union: the source stores round picks without
filtering them against the candidates. -/
theorem C4_counterexample :
    StageRecord.finalRounds ["ZZZZ"] ["AAA", "BBB"] ["AAA", "BBB"] ∈
      (selectPortfolioTickers c4Oracle).stages ∧
    "ZZZZ" ∉ (selectPortfolioTickers c4Oracle).allCandidates := by
  constructor
  · decide
  · decide

/-- Claim C4 (amended): provided every successfully parsed narrowing-round
response and the final narrowing response return only tickers from the
candidate union, every ticker appearing in any stage record of the session
(both initial selections, aggregation, rationale generation, the three
narrowing rounds and the final consolidation, on success and fallback paths
alike) also appears, with identical case, in the aggregated unique-candidate
union. -/
theorem C4_stage_tickers_amended : ∀ o : SelectorOracle,
    (∀ l, o.round1 = .ok l → ∀ t ∈ l, t ∈ (selectPortfolioTickers o).allCandidates) →
    (∀ l, o.round2 = .ok l → ∀ t ∈ l, t ∈ (selectPortfolioTickers o).allCandidates) →
    (∀ l, o.round3 = .ok l → ∀ t ∈ l, t ∈ (selectPortfolioTickers o).allCandidates) →
    (∀ l, o.narrow = .ok l → ∀ t ∈ l, t ∈ (selectPortfolioTickers o).allCandidates) →
    ∀ s ∈ (selectPortfolioTickers o).stages, ∀ t ∈ stageTickers s,
      t ∈ (selectPortfolioTickers o).allCandidates := by
  intro o h1 h2 h3 h4 s hs t ht
  have hoc : ∀ t ∈ openaiSelectTickers o 20, t ∈ (selectPortfolioTickers o).allCandidates := by
    intro t ht
    exact List.mem_dedup.mpr (List.mem_append.mpr (Or.inl ht))
  have hgc : ∀ t ∈ geminiSelectTickers o 20, t ∈ (selectPortfolioTickers o).allCandidates := by
    intro t ht
    exact List.mem_dedup.mpr (List.mem_append.mpr (Or.inr ht))
  have hr1 := openaiSelectTop5_subset o.round1 (selectPortfolioTickers o).allCandidates h1
  have hr2 := openaiSelectTop5_subset o.round2 (selectPortfolioTickers o).allCandidates h2
  have hr3 := openaiSelectTop5_subset o.round3 (selectPortfolioTickers o).allCandidates h3
  have hu : ∀ t ∈ ((openaiSelectTop5 o.round1 (selectPortfolioTickers o).allCandidates ++
        openaiSelectTop5 o.round2 (selectPortfolioTickers o).allCandidates ++
        openaiSelectTop5 o.round3 (selectPortfolioTickers o).allCandidates).dedup),
      t ∈ (selectPortfolioTickers o).allCandidates := by
    intro t ht
    rcases List.mem_append.mp (List.mem_dedup.mp ht) with h12 | hc
    · rcases List.mem_append.mp h12 with ha | hb
      · exact hr1 t ha
      · exact hr2 t hb
    · exact hr3 t hc
  have hfin : ∀ t ∈ consolidateFinalists
        (openaiSelectTop5 o.round1 (selectPortfolioTickers o).allCandidates)
        (openaiSelectTop5 o.round2 (selectPortfolioTickers o).allCandidates)
        (openaiSelectTop5 o.round3 (selectPortfolioTickers o).allCandidates) o.narrow,
      t ∈ (selectPortfolioTickers o).allCandidates := by
    intro t ht
    simp only [consolidateFinalists] at ht
    by_cases hlen : 5 < ((openaiSelectTop5 o.round1 (selectPortfolioTickers o).allCandidates ++
        openaiSelectTop5 o.round2 (selectPortfolioTickers o).allCandidates ++
        openaiSelectTop5 o.round3 (selectPortfolioTickers o).allCandidates).dedup).length
    · rw [if_pos hlen] at ht
      exact openaiNarrowTo5_subset o.narrow _ _ hu h4 t ht
    · rw [if_neg hlen] at ht
      exact hu t ht
  simp only [selectPortfolioTickers, List.mem_cons, List.not_mem_nil, or_false] at hs
  rcases hs with rfl | rfl | rfl | rfl | rfl | rfl
  · exact hoc t ht
  · exact hgc t ht
  · exact ht
  · rcases (by simpa [stageTickers] using ht :
        t ∈ openaiSelectTickers o 20 ∨ t ∈ geminiSelectTickers o 20) with h | h
    · exact hoc t h
    · exact hgc t h
  · rcases List.mem_append.mp ht with h12 | hc
    · rcases List.mem_append.mp h12 with ha | hb
      · exact hr1 t ha
      · exact hr2 t hb
    · exact hr3 t hc
  · rcases List.mem_append.mp ht with hU | hF
    · exact hu t hU
    · exact hfin t hF

/-- Claim C4 witness: the amended theorem applied to the total-outage oracle,
whose round hypotheses hold vacuously because every call fails. -/
theorem C4_stage_tickers_amended_witness :
    (∀ l, c4FallbackOracle.round1 = .ok l →
      ∀ t ∈ l, t ∈ (selectPortfolioTickers c4FallbackOracle).allCandidates) ∧
    (∀ s ∈ (selectPortfolioTickers c4FallbackOracle).stages,
      ∀ t ∈ stageTickers s, t ∈ (selectPortfolioTickers c4FallbackOracle).allCandidates) :=
  ⟨(fun _ h => nomatch h),
   C4_stage_tickers_amended c4FallbackOracle (fun _ h => nomatch h) (fun _ h => nomatch h)
     (fun _ h => nomatch h) (fun _ h => nomatch h)⟩

/-- Claim C5, counterexample: a provider throttled on every attempt triggers
backoff sleeps of 10 and 20 seconds only, not the claimed 10, 20 and 30
second schedule (with max_retries = 3 the loop performs 2 retries, not 3). -/
theorem C5_counterexample :
    (rateLimitedApiCall throttleAlways).2 = [10, 20] ∧
    (rateLimitedApiCall throttleAlways).2 ≠ [10, 20, 30] := by decide

/-- Claim C5 (amended): the rate-limited caller retries up to max_retries - 1
= 2 times on a throttling signal, with linearly increasing backoff of
attempt x 10 seconds (10s then 20s); a non-throttling error propagates
immediately with no backoff sleep; a throttled first attempt followed by a
success recovers after a single 10s sleep; and the rate-limit error is
surfaced only after all 3 attempts are exhausted, with sleeps 10s and 20s. -/
theorem C5_retry_amended : ∀ (α : Type) (o : ℕ → CallOutcome α) (m0 m1 m2 : String),
    (o 0 = .failure m0 → isRateLimitMsg m0 = false →
      rateLimitedApiCall o = (.error m0, [])) ∧
    (∀ a, o 0 = .failure m0 → isRateLimitMsg m0 = true → o 1 = .success a →
      rateLimitedApiCall o = (.ok (some a), [10])) ∧
    (o 0 = .failure m0 → o 1 = .failure m1 → o 2 = .failure m2 →
      isRateLimitMsg m0 = true → isRateLimitMsg m1 = true → isRateLimitMsg m2 = true →
      rateLimitedApiCall o = (.error m2, [10, 20])) := by
  intro α o m0 m1 m2
  refine ⟨?_, ?_, ?_⟩
  · intro h0 hr
    simp [rateLimitedApiCall, rateLimitedGo, h0, hr]
  · intro a h0 hr h1
    simp [rateLimitedApiCall, rateLimitedGo, h0, hr, h1]
  · intro h0 h1 h2 r0 r1 r2
    simp [rateLimitedApiCall, rateLimitedGo, h0, h1, h2, r0, r1, r2]

/-- Claim C5 witness: the amended theorem applied to the always-throttled
provider, exercising the exhaustion clause. -/
theorem C5_retry_amended_witness :
    isRateLimitMsg "429 rate limit" = true ∧
    rateLimitedApiCall throttleAlways = (.error "429 rate limit", [10, 20]) :=
  ⟨by decide,
    (C5_retry_amended Unit throttleAlways "429 rate limit" "429 rate limit" "429 rate limit").2.2
      rfl rfl rfl (by decide) (by decide) (by decide)⟩

/-- Claim C6: in the agent run loop, an agent whose analyze call raises is
stored as the default result with score 50, rationale "Analysis failed:"
followed by the reason, and empty details; the loop stores one result per
agent so the run never aborts; and an agent returning a null score is stored
with score exactly 50. -/
theorem C6_agent_failure_isolation : ∀ agents : List (String × AgentOutcome),
    (runAgents agents).length = agents.length ∧
    (∀ n reason, (n, AgentOutcome.raises reason) ∈ agents →
      (n, (⟨some 50, "Analysis failed: " ++ reason, []⟩ : AgentResultR)) ∈ runAgents agents) ∧
    (∀ n rat det, (n, AgentOutcome.returns none rat det) ∈ agents →
      (n, (⟨some 50, rat, det⟩ : AgentResultR)) ∈ runAgents agents) := by
  intro agents
  refine ⟨by simp [runAgents], ?_, ?_⟩
  · intro n reason h
    have h2 := List.mem_map_of_mem (fun na : String × AgentOutcome => (na.1, runAgent na.2)) h
    simpa [runAgents, runAgent] using h2
  · intro n rat det h
    have h2 := List.mem_map_of_mem (fun na : String × AgentOutcome => (na.1, runAgent na.2)) h
    simpa [runAgents, runAgent] using h2

/-- Claim C6 witness: the theorem applied to a roster containing a raising
agent, a null-scored agent and a healthy agent. -/
theorem C6_agent_failure_isolation_witness :
    (("value_agent", AgentOutcome.raises "boom") ∈ c6Agents ∧
      ("growth_momentum_agent", AgentOutcome.returns none "no score returned" []) ∈ c6Agents) ∧
    (runAgents c6Agents).length = c6Agents.length ∧
    ("value_agent", (⟨some 50, "Analysis failed: boom", []⟩ : AgentResultR)) ∈ runAgents c6Agents ∧
    ("growth_momentum_agent", (⟨some 50, "no score returned", []⟩ : AgentResultR)) ∈
      runAgents c6Agents :=
  ⟨⟨by decide, by decide⟩, (C6_agent_failure_isolation c6Agents).1,
    (C6_agent_failure_isolation c6Agents).2.1 "value_agent" "boom" (by decide),
    (C6_agent_failure_isolation c6Agents).2.2 "growth_momentum_agent" "no score returned" []
      (by decide)⟩

/-- Claim C7, counterexample: when only the price-history task raises while
fundamentals succeeds with a non-empty dict, the assembled bundle does not set
the failed field to its empty default: price_history is a 252-row series
synthesized from the fundamentals (the other two fields do keep their task
results). -/
theorem C7_counterexample :
    (gatherData (fun _ => 0) c7Outcomes).priceHistory ≠ [] ∧
    (gatherData (fun _ => 0) c7Outcomes).priceHistory.length = 252 ∧
    (gatherData (fun _ => 0) c7Outcomes).fundamentals = c7Fund ∧
    (gatherData (fun _ => 0) c7Outcomes).benchmarkHistory = [4000] := by
  have hc : gatherData (fun _ => 0) c7Outcomes =
      ⟨c7Fund, extractPriceHistory (fun _ => 0) c7Fund, [4000]⟩ := by
    simp [gatherData, c7Outcomes, c7Fund, List.lookup]
  rw [hc]
  refine ⟨?_, by simp [extractPriceHistory], rfl, rfl⟩
  apply List.ne_nil_of_length_pos
  simp [extractPriceHistory]

/-- Claim C7 (amended): the fetch is total (never raises) and isolates each
single-task failure: a failed fundamentals task yields an empty fundamentals
dict with price history and benchmark taken from their task results; a failed
benchmark task yields an empty benchmark with the other two fields from their
results (when fundamentals does not flag the comprehensive-enhanced shortcut);
a failed price-history task keeps fundamentals and benchmark from their
results, but the price_history field is set to the empty default only when
fundamentals is empty too - otherwise it is synthesized from fundamentals. -/
theorem C7_partial_failure_amended : ∀ (noise : ℕ → ℚ) (f : Fundamentals)
    (p b : List ℚ) (e : String),
    (gatherData noise ⟨.error e, .ok p, .ok b⟩ = ⟨[], p, b⟩) ∧
    (f.lookup "source" ≠ some (FVal.str "comprehensive_enhanced") →
      gatherData noise ⟨.ok f, .ok p, .error e⟩ = ⟨f, p, []⟩) ∧
    ((gatherData noise ⟨.ok f, .error e, .ok b⟩).fundamentals = f ∧
      (gatherData noise ⟨.ok f, .error e, .ok b⟩).benchmarkHistory = b) ∧
    (f ≠ [] → (gatherData noise ⟨.ok f, .error e, .ok b⟩).priceHistory =
      extractPriceHistory noise f) ∧
    (f = [] → (gatherData noise ⟨.ok f, .error e, .ok b⟩).priceHistory = []) := by
  intro noise f p b e
  refine ⟨by simp [gatherData, List.lookup], ?_, ?_, ?_, ?_⟩
  · intro hs
    simp [gatherData, hs]
  · by_cases hs : f.lookup "source" = some (FVal.str "comprehensive_enhanced") <;>
      simp [gatherData, hs]
  · intro hf
    by_cases hs : f.lookup "source" = some (FVal.str "comprehensive_enhanced") <;>
      simp [gatherData, hs, hf]
  · intro hf
    subst hf
    simp [gatherData, List.lookup]

/-- Claim C7 witness: the amended theorem applied to a concrete non-empty
fundamentals dict, exercising the benchmark-failure and price-failure
clauses. -/
theorem C7_partial_failure_amended_witness :
    (c7Fund.lookup "source" ≠ some (FVal.str "comprehensive_enhanced") ∧ c7Fund ≠ []) ∧
    gatherData (fun _ => 0) ⟨.ok c7Fund, .ok [1], .error "x"⟩ = ⟨c7Fund, [1], []⟩ ∧
    (gatherData (fun _ => 0) ⟨.ok c7Fund, .error "x", .ok [2]⟩).priceHistory =
      extractPriceHistory (fun _ => 0) c7Fund :=
  ⟨⟨by decide, by decide⟩,
    (C7_partial_failure_amended (fun _ => 0) c7Fund [1] [2] "x").2.1 (by decide),
    (C7_partial_failure_amended (fun _ => 0) c7Fund [1] [2] "x").2.2.2.1 (by decide)⟩

/-- Claim C8, counterexample: with only the fundamentals task failing while
price history and benchmark both succeed (so not a total data failure), the
per-ticker run still aborts with the error result - the abort condition is
empty fundamentals alone, not the all-three-failed condition the claim
names. -/
theorem C8_counterexample :
    (analyzeSingleStock (fun _ => 0) c8Outcomes c6Agents defaultAgentWeights).error =
      some "No data available" ∧
    (analyzeSingleStock (fun _ => 0) c8Outcomes c6Agents defaultAgentWeights).eligible = false ∧
    (analyzeSingleStock (fun _ => 0) c8Outcomes c6Agents defaultAgentWeights).finalScore = 0 ∧
    c8Outcomes.priceHistoryTask = .ok [101] ∧ c8Outcomes.benchmarkTask = .ok [4000] := by
  refine ⟨?_, ?_, ?_, rfl, rfl⟩ <;> simp [analyzeSingleStock, gatherData, c8Outcomes]

/-- Claim C8 (amended): the per-ticker run never raises and returns a result
carrying an error field with zeroed scores (blended 0, final 0, eligible
false) exactly when the gathered fundamentals dict is empty - regardless of
whether the price-history and benchmark fetches succeeded; with non-empty
fundamentals the result has no error and is eligible. -/
theorem C8_error_result_amended : ∀ (noise : ℕ → ℚ) (o : GatherOutcomes)
    (agents : List (String × AgentOutcome)) (w : AgentWeights),
    ((analyzeSingleStock noise o agents w).error.isSome ↔
      (gatherData noise o).fundamentals = []) ∧
    ((gatherData noise o).fundamentals = [] →
      analyzeSingleStock noise o agents w = ⟨some "No data available", 0, 0, false, []⟩) ∧
    ((gatherData noise o).fundamentals ≠ [] →
      (analyzeSingleStock noise o agents w).error = none ∧
      (analyzeSingleStock noise o agents w).eligible = true) := by
  intro noise o agents w
  by_cases h : (gatherData noise o).fundamentals = [] <;>
    simp [analyzeSingleStock, h]

/-- Claim C8 witness: the amended theorem applied to the fundamentals-failure
outcomes (error result) and to the price-failure outcomes (no error). -/
theorem C8_error_result_amended_witness :
    ((gatherData (fun _ => 0) c8Outcomes).fundamentals = [] ∧
      analyzeSingleStock (fun _ => 0) c8Outcomes c6Agents defaultAgentWeights =
        ⟨some "No data available", 0, 0, false, []⟩) ∧
    ((gatherData (fun _ => 0) c7Outcomes).fundamentals ≠ [] ∧
      (analyzeSingleStock (fun _ => 0) c7Outcomes c6Agents defaultAgentWeights).eligible =
        true) := by
  have hEmpty : (gatherData (fun _ => 0) c8Outcomes).fundamentals = [] := by
    simp [gatherData, c8Outcomes]
  have hNe : (gatherData (fun _ => 0) c7Outcomes).fundamentals ≠ [] := by
    simp [gatherData, c7Outcomes, c7Fund]
  exact ⟨⟨hEmpty,
      (C8_error_result_amended (fun _ => 0) c8Outcomes c6Agents defaultAgentWeights).2.1 hEmpty⟩,
    ⟨hNe,
      ((C8_error_result_amended (fun _ => 0) c7Outcomes c6Agents defaultAgentWeights).2.2
        hNe).2⟩⟩

/-- Claim C9: for a run with the default (unrevised) phase durations queried
at non-decreasing progress points in the valid window (progress in [3, 100),
elapsed at least 1), the sequence of emitted time-remaining estimates is
monotonically non-increasing, with each emitted estimate at most 1.2 times
its predecessor; and in all cases (any phase-duration history, any inputs) an
estimate emitted from a positive stored previous estimate never exceeds 1.2
times that previous estimate. -/
theorem C9_eta_monotone :
    (∀ inputs : List (ℚ × ℚ),
      (∀ x ∈ inputs, 3 ≤ x.2 ∧ x.2 < 100 ∧ 1 ≤ x.1) →
      List.Chain' (fun a b : ℚ × ℚ => a.2 ≤ b.2) inputs →
      List.Chain' (fun a b : ℚ => b ≤ a ∧ b ≤ 1.2 * a) (runEta inputs none)) ∧
    (∀ (histDG histAG : List ℚ) (el p pv e : ℚ) (pr2 : Option ℚ), 0 < pv →
      etaStep histDG histAG el p (some pv) = (some e, pr2) → e ≤ 1.2 * pv) := by
  constructor
  · intro inputs hbounds hchain
    cases inputs with
    | nil => simp [runEta]
    | cons elp rest =>
      rcases elp with ⟨el, p⟩
      obtain ⟨h3, h100, hel⟩ := hbounds (el, p) (List.mem_cons_self _ _)
      have hrun : runEta ((el, p) :: rest) none =
          etaRaw p :: runEta rest (some (etaRaw p)) := by
        simp only [runEta, etaStep_start h3 h100 hel]
      rw [hrun]
      refine runEta_aux rest (etaRaw p) ?_ hchain.tail (etaRaw_pos h3 h100) ?_
      · intro x hx
        exact hbounds x (List.mem_cons_of_mem _ hx)
      · intro x hx
        have hpx : p ≤ x.2 := (List.chain'_cons'.mp hchain).1 x hx
        have hb := hbounds x (List.mem_cons_of_mem _ (List.mem_of_mem_head? hx))
        exact etaRaw_anti h3 hpx hb.2.1
  · intro histDG histAG el p pv e pr2 hpv he
    exact etaStep_cap histDG histAG el p pv e pr2 hpv he

/-- Claim C9 witness: the monotonicity clause applied to a concrete
two-query run at progress 10 then 50. -/
theorem C9_eta_monotone_witness :
    ((∀ x ∈ [((1 : ℚ), (10 : ℚ)), (2, 50)], 3 ≤ x.2 ∧ x.2 < 100 ∧ 1 ≤ x.1) ∧
      List.Chain' (fun a b : ℚ × ℚ => a.2 ≤ b.2) [((1 : ℚ), (10 : ℚ)), (2, 50)]) ∧
    List.Chain' (fun a b : ℚ => b ≤ a ∧ b ≤ 1.2 * a)
      (runEta [((1 : ℚ), (10 : ℚ)), (2, 50)] none) := by
  have hb : ∀ x ∈ [((1 : ℚ), (10 : ℚ)), (2, 50)], 3 ≤ x.2 ∧ x.2 < 100 ∧ 1 ≤ x.1 := by
    intro x hx
    rcases List.mem_cons.mp hx with rfl | hx2
    · norm_num
    rcases List.mem_cons.mp hx2 with rfl | hx3
    · norm_num
    exact absurd hx3 (List.not_mem_nil x)
  have hc : List.Chain' (fun a b : ℚ × ℚ => a.2 ≤ b.2) [((1 : ℚ), (10 : ℚ)), (2, 50)] := by
    simp only [List.chain'_cons, List.chain'_singleton, and_true]
    norm_num
  exact ⟨⟨hb, hc⟩, C9_eta_monotone.1 [((1 : ℚ), (10 : ℚ)), (2, 50)] hb hc⟩

/-- Claim C10 (implicit): in the blender, a score of exactly 0 is read as 50
by the falsy expression used in the base weighted average - replacing every
zero score by 50 leaves base_score unchanged, so a worst-possible agent score
can never pull the base below what a neutral 50 would; and the sentiment
upside check likewise reads a 0 sentiment score as 50. -/
theorem C10_zero_score_coalescing :
    (∀ results w, baseScore (coalesceZeroScores results) w = baseScore results w) ∧
    (∀ (rest : List (String × AgentResultR)) (rat : String) (det : List (String × String)),
      upsideMultiplier (("sentiment_agent", ⟨some 0, rat, det⟩) :: rest) =
        upsideMultiplier (("sentiment_agent", ⟨some 50, rat, det⟩) :: rest)) := by
  refine ⟨baseScore_coalesce, ?_⟩
  intro rest rat det
  simp [upsideMultiplier, List.lookup, orFifty]

end Wharton
